import Mathlib

/-!
Verification of the CSV-to-table reconciliation engine of the
earnings-calendar repository (companiesmarketcap.py, earnings-calendar.py).

The two scripts are shallowly embedded: field coercion, the change
detector, the per-row upsert and the run coordinator become executable
Lean definitions; the destination table is a list of stored rows keyed by
the ticker symbol; timestamps are abstracted to a single per-run clock
value; Python floats are modelled as exact scaled decimals over the
decimal-literal fragment of the float syntax.
-/

set_option autoImplicit false
set_option maxRecDepth 8000

namespace EarningsCalendar

/-! ## Character-level parsing primitives (models of Python int, float, strptime) -/

/-- Numeric value of a digit list, most significant first. -/
def digitsVal (cs : List Char) : Nat :=
  cs.foldl (fun n c => 10 * n + (c.toNat - 48)) 0

/-- True when the list is a nonempty run of decimal digits. -/
def isDigitList (cs : List Char) : Bool :=
  !cs.isEmpty && cs.all (fun c => c.isDigit)

/-- Split a character list at every occurrence of the separator. -/
def splitOnChar (c : Char) : List Char → List (List Char)
  | [] => [[]]
  | x :: xs =>
    let r := splitOnChar c xs
    if x = c then [] :: r
    else
      match r with
      | y :: ys => (x :: y) :: ys
      | [] => [[x]]

/-- Model of Python int(str) on an optionally signed digit string. -/
def parseIntChars (cs : List Char) : Option Int :=
  match cs with
  | '-' :: rest => if isDigitList rest then some (-(digitsVal rest : Int)) else none
  | '+' :: rest => if isDigitList rest then some ((digitsVal rest : Int)) else none
  | _ => if isDigitList cs then some ((digitsVal cs : Int)) else none

/-- Model of Python int(str). -/
def parseInt (s : String) : Option Int :=
  parseIntChars s.data

/-- Exact model of a Python float parsed from a decimal literal: the
value mant / 10 ^ scale. Exact decimal arithmetic stands in for binary
floating point; the feeds only carry short decimal literals, where the
two agree on the zero test and on equality of a value with itself. -/
structure Dec where
  mant : Int
  scale : Nat
deriving DecidableEq

/-- The rational value denoted by a Dec. -/
def Dec.toRat (d : Dec) : Rat :=
  (d.mant : Rat) / (10 : Rat) ^ d.scale

/-- Mantissa of a float literal: digits, digits.digits, digits., or .digits. -/
def parseMant (cs : List Char) : Option Dec :=
  match splitOnChar '.' cs with
  | [ip] => if isDigitList ip then some ⟨(digitsVal ip : Int), 0⟩ else none
  | [ip, fp] =>
    if ip.isEmpty && fp.isEmpty then none
    else if ip.all (fun c => c.isDigit) && fp.all (fun c => c.isDigit) then
      some ⟨(digitsVal ip : Int) * (10 : Int) ^ fp.length + (digitsVal fp : Int), fp.length⟩
    else none
  | _ => none

/-- Apply a base-ten exponent to a mantissa. -/
def applyExp (d : Dec) (e : Int) : Dec :=
  if 0 ≤ e then ⟨d.mant * (10 : Int) ^ e.toNat, d.scale⟩
  else ⟨d.mant, d.scale + (-e).toNat⟩

/-- Model of Python float(str) on the decimal-literal fragment
(optional sign, decimal mantissa, optional exponent; the inf/nan
keywords, underscores and surrounding whitespace are outside the model). -/
def parseFloat (s : String) : Option Dec :=
  let signBody : Bool × List Char :=
    match s.data with
    | '-' :: rest => (true, rest)
    | '+' :: rest => (false, rest)
    | cs => (false, cs)
  let cs := signBody.2.map Char.toLower
  let applySign : Dec → Dec := fun d => if signBody.1 then ⟨-d.mant, d.scale⟩ else d
  match splitOnChar 'e' cs with
  | [m] => (parseMant m).map applySign
  | [m, ex] =>
    match parseMant m, parseIntChars ex with
    | some mant, some e => some (applySign (applyExp mant e))
    | _, _ => none
  | _ => none

/-- Calendar date as produced by datetime.strptime with layout Y-m-d. -/
structure PDate where
  year : Nat
  month : Nat
  day : Nat
deriving DecidableEq

/-- Gregorian leap-year test used by the date validity check. -/
def isLeap (y : Nat) : Bool :=
  (y % 4 = 0 && y % 100 ≠ 0) || y % 400 = 0

/-- Number of days of a month in a given year. -/
def daysInMonth (y m : Nat) : Nat :=
  if m = 2 then (if isLeap y then 29 else 28)
  else if m = 4 || m = 6 || m = 9 || m = 11 then 30
  else 31

/-- Model of datetime.strptime(s, Y-m-d): three dash-separated digit
groups with calendar validity checking. -/
def parseDate (s : String) : Option PDate :=
  match splitOnChar '-' s.data with
  | [ys, ms, ds] =>
    if isDigitList ys && isDigitList ms && isDigitList ds
        && ys.length ≤ 4 && ms.length ≤ 2 && ds.length ≤ 2 then
      let y := digitsVal ys
      let m := digitsVal ms
      let d := digitsVal ds
      if 1 ≤ y && 1 ≤ m && m ≤ 12 && 1 ≤ d && d ≤ daysInMonth y m then
        some ⟨y, m, d⟩
      else none
    else none
  | _ => none

/-! ## Field coercion (the per-field conversions at the top of each row loop) -/

/-- Which field of a row failed to coerce, and with what raw value. -/
inductive ParseError where
  | badInt (fld value : String)
  | badFloat (fld value : String)
  | badDate (fld value : String)
deriving DecidableEq

/-- Text field normalization: row[k] if row[k] else None. -/
def pyStr (s : String) : Option String :=
  if s = "" then none else some s

/-- Date field coercion: strptime(row[k]) if row[k] else None;
a nonempty malformed value raises. -/
def pyDateField (fld s : String) : Except ParseError (Option PDate) :=
  if s = "" then .ok none
  else
    match parseDate s with
    | some d => .ok (some d)
    | none => .error (.badDate fld s)

/-- Decimal field coercion: float(row[k]) if row[k] else None;
a nonempty malformed value raises. -/
def pyFloatField (fld s : String) : Except ParseError (Option Dec) :=
  if s = "" then .ok none
  else
    match parseFloat s with
    | some q => .ok (some q)
    | none => .error (.badFloat fld s)

/-- Integer field coercion: int(row[k]) if row[k] else None;
a nonempty malformed value raises. -/
def pyIntField (fld s : String) : Except ParseError (Option Int) :=
  if s = "" then .ok none
  else
    match parseInt s with
    | some n => .ok (some n)
    | none => .error (.badInt fld s)

/-! ## Raw and parsed records for the two feeds -/

/-- One raw CSV row of the earnings feed (DictReader gives every header
key, values possibly empty). -/
structure EarningsRaw where
  symbol : String
  name : String
  reportDate : String
  fiscalDateEnding : String
  estimate : String
  currency : String
deriving DecidableEq

/-- The typed projection of an earnings row after field coercion. -/
structure EarningsRecord where
  symbol : Option String
  name : Option String
  report_date : Option PDate
  fiscal_date_ending : Option PDate
  estimate : Option Dec
  currency : Option String
deriving DecidableEq

/-- Field coercion for one earnings row, in source statement order:
the report date raises first, then the fiscal date, then the estimate. -/
def parseEarningsRow (raw : EarningsRaw) : Except ParseError EarningsRecord :=
  match pyDateField "reportDate" raw.reportDate,
        pyDateField "fiscalDateEnding" raw.fiscalDateEnding,
        pyFloatField "estimate" raw.estimate with
  | .ok rd, .ok fde, .ok est =>
    .ok { symbol := pyStr raw.symbol, name := pyStr raw.name,
          report_date := rd, fiscal_date_ending := fde,
          estimate := est, currency := pyStr raw.currency }
  | .error e, _, _ => .error e
  | _, .error e, _ => .error e
  | _, _, .error e => .error e

/-- One raw CSV row of the market-cap feed. -/
structure CmcRaw where
  rank : String
  name : String
  symbol : String
  marketcap : String
  price_usd : String
  country : String
deriving DecidableEq

/-- The typed projection of a market-cap row after field coercion. -/
structure CmcRecord where
  rank : Option Int
  name : Option String
  symbol : Option String
  marketcap : Option Dec
  latest_price : Option Dec
  country : Option String
deriving DecidableEq

/-- Field coercion for one market-cap row, in source statement order:
the rank raises first, then marketcap, then the price. -/
def parseCmcRow (raw : CmcRaw) : Except ParseError CmcRecord :=
  match pyIntField "Rank" raw.rank,
        pyFloatField "marketcap" raw.marketcap,
        pyFloatField "price (USD)" raw.price_usd with
  | .ok rk, .ok mc, .ok lp =>
    .ok { rank := rk, name := pyStr raw.name, symbol := pyStr raw.symbol,
          marketcap := mc, latest_price := lp, country := pyStr raw.country }
  | .error e, _, _ => .error e
  | _, .error e, _ => .error e
  | _, _, .error e => .error e

/-! ## Change detector (earnings feed) -/

/-- Python truthiness of a normalized text field. -/
def pyTruthyStr : Option String → Bool
  | none => false
  | some s => if s = "" then false else true

/-- Python truthiness of a parsed date field (a datetime object is
always truthy). -/
def pyTruthyDate : Option PDate → Bool
  | none => false
  | some _ => true

/-- Python truthiness of a parsed float field (zero is falsy). -/
def pyTruthyDec : Option Dec → Bool
  | none => false
  | some d => if d.mant = 0 then false else true

/-- The changed-columns list built by the sequence of truthiness checks
in the earnings row loop, in source order. -/
def changed_columns (rec : EarningsRecord) : List String :=
  (if pyTruthyStr rec.name then ["ec_name"] else []) ++
  (if pyTruthyDate rec.report_date then ["ec_report_date"] else []) ++
  (if pyTruthyDate rec.fiscal_date_ending then ["ec_fiscal_date_ending"] else []) ++
  (if pyTruthyDec rec.estimate then ["ec_estimate"] else []) ++
  (if pyTruthyStr rec.currency then ["ec_currency"] else [])

/-- The stored change-set string: join with comma-space, truncate to
255 characters, and None for an empty list. -/
def last_changed (rec : EarningsRecord) : Option String :=
  match changed_columns rec with
  | [] => none
  | cs => some ((String.intercalate ", " cs).take 255)

/-! ## Stored rows and the upsert statement (earnings feed) -/

/-- One row of the earningscalendar destination table. Timestamp
columns hold the abstract run clock; none is SQL NULL. -/
structure EcStored where
  symbol : String
  name : Option String
  report_date : Option PDate
  fiscal_date_ending : Option PDate
  estimate : Option Dec
  currency : Option String
  last_polled : Option Nat
  last_updated : Option Nat
  last_changed : Option String
deriving DecidableEq

/-- The row written by the insert branch of the upsert statement: the
values clause names symbol, the five mutable fields and last_polled
only, so last_updated and last_changed take the column default NULL. -/
def ecStoredInsert (rec : EarningsRecord) (sym : String) (now : Nat) : EcStored :=
  { symbol := sym, name := rec.name, report_date := rec.report_date,
    fiscal_date_ending := rec.fiscal_date_ending, estimate := rec.estimate,
    currency := rec.currency, last_polled := some now,
    last_updated := none, last_changed := none }

/-- The row produced by the on-duplicate-key-update branch: every
column except the key is overwritten with the incoming value. -/
def ecStoredUpdate (old : EcStored) (rec : EarningsRecord) (now : Nat) : EcStored :=
  { symbol := old.symbol, name := rec.name, report_date := rec.report_date,
    fiscal_date_ending := rec.fiscal_date_ending, estimate := rec.estimate,
    currency := rec.currency, last_polled := some now,
    last_updated := some now, last_changed := last_changed rec }

/-- MySQL insert-or-update-on-duplicate-key, keyed by the symbol. -/
def ecUpsert (tbl : List EcStored) (rec : EarningsRecord) (sym : String) (now : Nat) :
    List EcStored :=
  if tbl.any (fun s => s.symbol == sym) then
    tbl.map (fun s => if s.symbol == sym then ecStoredUpdate s rec now else s)
  else tbl ++ [ecStoredInsert rec sym now]

/-- Classification of one earnings row by the loop body: field coercion
runs first and can raise; only then is the empty-key skip tested. -/
inductive EcRowStep where
  | fatal (e : ParseError)
  | skipped
  | wrote (rec : EarningsRecord) (sym : String)
deriving DecidableEq

/-- One iteration of the earnings row loop up to the upsert decision. -/
def ecRowStep (raw : EarningsRaw) : EcRowStep :=
  match parseEarningsRow raw with
  | .error e => .fatal e
  | .ok rec =>
    match rec.symbol with
    | none => .skipped
    | some sym => .wrote rec sym

/-- The earnings row loop. Each upsert commits immediately, so on a
fatal row the rows already processed stay in the table; the second
component is the error that aborted the run, if any. -/
def ecProcessRows : List EarningsRaw → List EcStored → Nat →
    List EcStored × Option ParseError
  | [], tbl, _ => (tbl, none)
  | raw :: rest, tbl, now =>
    match ecRowStep raw with
    | .fatal e => (tbl, some e)
    | .skipped => ecProcessRows rest tbl now
    | .wrote rec sym => ecProcessRows rest (ecUpsert tbl rec sym now) now

/-- Observable outcome of one earnings run: final table contents,
whether the process exited with status zero, and whether the cleanup
block (artifact removal plus empty-directory removal) executed. -/
structure EcRunResult where
  table : List EcStored
  exitZero : Bool
  cleanupRan : Bool
deriving DecidableEq

/-- The earnings run coordinator from the download step on. A download
failure exits before the try-finally around row processing, so its
cleanup does not run; any failure inside row processing reaches the
finally block, so cleanup runs there, as it does on success. -/
def ecRun (pre : List EcStored) (downloadOk : Bool) (rows : List EarningsRaw)
    (now : Nat) : EcRunResult :=
  if !downloadOk then { table := pre, exitZero := false, cleanupRan := false }
  else
    match ecProcessRows rows pre now with
    | (tbl, none) => { table := tbl, exitZero := true, cleanupRan := true }
    | (tbl, some _) => { table := tbl, exitZero := false, cleanupRan := true }

/-! ## Stored rows and the full-refresh run (market-cap feed) -/

/-- One row of the companiesmarketcap destination table. -/
structure CmcStored where
  rank : Option Int
  name : Option String
  symbol : String
  marketcap : Option Dec
  latest_price : Option Dec
  country : Option String
  last_polled : Nat
  last_updated : Nat
  origin : String
deriving DecidableEq

/-- The row written by the market-cap insert statement. -/
def cmcStoredOf (now : Nat) (rec : CmcRecord) : CmcStored :=
  { rank := rec.rank, name := rec.name, symbol := rec.symbol.getD "",
    marketcap := rec.marketcap, latest_price := rec.latest_price,
    country := rec.country, last_polled := now, last_updated := now,
    origin := "https://companiesmarketcap.com" }

/-- A fatal failure inside the market-cap row loop: a field coercion
error, or a primary-key collision on insert. -/
inductive CmcFail where
  | parseFail (e : ParseError)
  | dupKey (sym : String)
deriving DecidableEq

/-- Classification of one market-cap row by the loop body. -/
inductive CmcRowStep where
  | fatal (e : CmcFail)
  | skipped
  | inserted (row : CmcStored)
deriving DecidableEq

/-- One iteration of the market-cap row loop: coercion first, then the
empty-key skip, then a plain insert that fails on a duplicate key. -/
def cmcRowStep (tbl : List CmcStored) (raw : CmcRaw) (now : Nat) : CmcRowStep :=
  match parseCmcRow raw with
  | .error e => .fatal (.parseFail e)
  | .ok rec =>
    match rec.symbol with
    | none => .skipped
    | some sym =>
      if tbl.any (fun s => s.symbol == sym) then .fatal (.dupKey sym)
      else .inserted (cmcStoredOf now rec)

/-- The market-cap row loop over the table the run is building. -/
def cmcProcessRows : List CmcRaw → List CmcStored → Nat →
    Except CmcFail (List CmcStored)
  | [], tbl, _ => .ok tbl
  | raw :: rest, tbl, now =>
    match cmcRowStep tbl raw now with
    | .fatal e => .error e
    | .skipped => cmcProcessRows rest tbl now
    | .inserted row => cmcProcessRows rest (tbl ++ [row]) now

/-- Observable outcome of one market-cap run. csvRemains records
whether the downloaded artifact was left on disk at exit. -/
structure CmcRunResult where
  table : List CmcStored
  exitZero : Bool
  cleanupRan : Bool
  csvRemains : Bool
deriving DecidableEq

/-- The market-cap run coordinator from the download step on. The
schema check and the table clear exit before the try-finally around row
processing, so the downloaded file survives those exits. The clear is
committed in its own transaction before the insert loop starts, so a
fatal row leaves the table empty: the rollback only discards the
inserts of the current run. -/
def cmcRun (pre : List CmcStored) (downloadOk schemaOk clearOk : Bool)
    (rows : List CmcRaw) (now : Nat) : CmcRunResult :=
  if !downloadOk then
    { table := pre, exitZero := false, cleanupRan := false, csvRemains := false }
  else if !schemaOk then
    { table := pre, exitZero := false, cleanupRan := false, csvRemains := true }
  else if !clearOk then
    { table := pre, exitZero := false, cleanupRan := false, csvRemains := true }
  else
    match cmcProcessRows rows [] now with
    | .ok tbl => { table := tbl, exitZero := true, cleanupRan := true, csvRemains := false }
    | .error _ => { table := [], exitZero := false, cleanupRan := true, csvRemains := false }

/-! ## Environment loading (earnings feed) -/

/-- The getenv results the earnings script reads; none models an unset
variable. -/
structure EcEnv where
  alphavantage_api_key : Option String
  db_name : Option String
  db_user : Option String
  db_password : Option String
  db_host : Option String
  db_charset : Option String
  table_name_env : Option String
  columns_pre_env : Option String
deriving DecidableEq

/-- Python not os.getenv(var): unset or empty counts as missing. -/
def envMissing : Option String → Bool
  | none => true
  | some s => s == ""

/-- The configuration the earnings script actually runs with. -/
structure EcConfig where
  api_key : Option String
  db_name : Option String
  db_user : Option String
  db_password : Option String
  db_host : Option String
  db_charset : Option String
  table_name : String
  columns_pre : String
deriving DecidableEq

/-- Environment validation followed by the hardcoded overwrite of the
table name and column prefix: the configured TABLE_NAME and
COLUMNS_PREFIX values are checked for presence and then discarded. -/
def loadEcConfig (env : EcEnv) : Option EcConfig :=
  if envMissing env.alphavantage_api_key || envMissing env.db_name ||
      envMissing env.db_user || envMissing env.db_password ||
      envMissing env.db_host || envMissing env.db_charset ||
      envMissing env.table_name_env || envMissing env.columns_pre_env then
    none
  else
    some { api_key := env.alphavantage_api_key, db_name := env.db_name,
           db_user := env.db_user, db_password := env.db_password,
           db_host := env.db_host, db_charset := env.db_charset,
           table_name := "earningscalendar", columns_pre := "ec_" }

/-! ## The set of valid rows of a download (specification-side view) -/

/-- The valid parsed rows of a download: the rows whose fields coerce
and whose natural key is nonempty, in download order. -/
def cmcValidRecords (rows : List CmcRaw) : List CmcRecord :=
  rows.filterMap (fun raw =>
    match parseCmcRow raw with
    | .ok rec => if rec.symbol.isSome then some rec else none
    | .error _ => none)

/-- The ordered association of storage column names with inclusion
flags, and the selection of the flagged names, as the specification
words the change detector. -/
def specCols (b1 b2 b3 b4 b5 : Bool) : List String :=
  ([("ec_name", b1), ("ec_report_date", b2), ("ec_fiscal_date_ending", b3),
    ("ec_estimate", b4), ("ec_currency", b5)].filter (fun p => p.2)).map (fun p => p.1)

/-- The change-set string as the specification words it: for each
mutable field in the fixed declared order, include its storage column
name iff the incoming value is non-null (and non-zero for the numeric
estimate); join with comma-space, truncate to 255 characters, null for
the empty list. -/
def lastChangedSpec (rec : EarningsRecord) : Option String :=
  let cols := specCols rec.name.isSome rec.report_date.isSome
    rec.fiscal_date_ending.isSome
    (match rec.estimate with
     | none => false
     | some d => if d.mant = 0 then false else true)
    rec.currency.isSome
  if cols.isEmpty then none else some ((String.intercalate ", " cols).take 255)

/-- A market-cap row holding a nonempty numeric field that does not
coerce (the malformed-field condition of the fatal parse path). -/
def cmcNumBad (raw : CmcRaw) : Bool :=
  ((raw.rank != "") && (parseInt raw.rank).isNone) ||
  ((raw.marketcap != "") && (parseFloat raw.marketcap).isNone) ||
  ((raw.price_usd != "") && (parseFloat raw.price_usd).isNone)

/-- An earnings row holding a nonempty date or numeric field that does
not coerce. -/
def ecFieldBad (raw : EarningsRaw) : Bool :=
  ((raw.reportDate != "") && (parseDate raw.reportDate).isNone) ||
  ((raw.fiscalDateEnding != "") && (parseDate raw.fiscalDateEnding).isNone) ||
  ((raw.estimate != "") && (parseFloat raw.estimate).isNone)

/-! ## Concrete rows used as evaluation witnesses -/

/-- A well-formed market-cap row (the scenario-A example values). -/
def cmcRowAcme : CmcRaw :=
  { rank := "1", name := "Acme", symbol := "ACME", marketcap := "1000.5",
    price_usd := "12.34", country := "USA" }

/-- A market-cap row whose marketcap field is nonempty but malformed. -/
def cmcRowBadMc : CmcRaw :=
  { rank := "2", name := "Foo", symbol := "FOO", marketcap := "N/A",
    price_usd := "1.0", country := "USA" }

/-- A stored market-cap row standing for the pre-run table contents. -/
def cmcPreRow : CmcStored :=
  { rank := some 9, name := some "Old", symbol := "OLD", marketcap := none,
    latest_price := none, country := some "USA", last_polled := 3,
    last_updated := 3, origin := "https://companiesmarketcap.com" }

/-- First-run earnings row of the scenario-C example. -/
def ecRawXom1 : EarningsRaw :=
  { symbol := "XOM", name := "Exxon", reportDate := "2024-11-01",
    fiscalDateEnding := "", estimate := "1.95", currency := "USD" }

/-- Second-run earnings row of the scenario-C example: the estimate
arrives empty. -/
def ecRawXom2 : EarningsRaw :=
  { symbol := "XOM", name := "Exxon", reportDate := "2024-11-01",
    fiscalDateEnding := "", estimate := "", currency := "USD" }

/-- An earnings row with an empty key and a malformed estimate. -/
def ecRawEmptyBad : EarningsRaw :=
  { symbol := "", name := "", reportDate := "", fiscalDateEnding := "",
    estimate := "N/A", currency := "" }

/-- An earnings row with an empty key whose other fields all coerce. -/
def ecRawEmptyOk : EarningsRaw :=
  { symbol := "", name := "Ghost", reportDate := "", fiscalDateEnding := "",
    estimate := "", currency := "" }

/-- A well-formed earnings row. -/
def ecRawIbm : EarningsRaw :=
  { symbol := "IBM", name := "IBM Corp", reportDate := "", fiscalDateEnding := "",
    estimate := "", currency := "" }

/-- An earnings row with a key but a malformed estimate. -/
def ecRawBadEst : EarningsRaw :=
  { symbol := "IBM", name := "", reportDate := "", fiscalDateEnding := "",
    estimate := "N/A", currency := "" }

/-- The parsed record of the second-run scenario-C row. -/
def ecRecXom2 : EarningsRecord :=
  { symbol := some "XOM", name := some "Exxon", report_date := some ⟨2024, 11, 1⟩,
    fiscal_date_ending := none, estimate := none, currency := some "USD" }

/-- The parsed record of the empty-key well-formed earnings row. -/
def ecRecEmptyOk : EarningsRecord :=
  { symbol := none, name := some "Ghost", report_date := none,
    fiscal_date_ending := none, estimate := none, currency := none }

/-- A stored earnings row for XOM as left by the first scenario-C run. -/
def ecXomOld : EcStored :=
  { symbol := "XOM", name := some "Exxon", report_date := some ⟨2024, 11, 1⟩,
    fiscal_date_ending := none, estimate := some ⟨195, 2⟩, currency := some "USD",
    last_polled := some 1, last_updated := none, last_changed := none }

/-- A market-cap row with an empty key and a malformed marketcap. -/
def cmcRowEmptyBad : CmcRaw :=
  { rank := "", name := "", symbol := "", marketcap := "N/A",
    price_usd := "", country := "" }

/-- A market-cap row with an empty key whose other fields all coerce. -/
def cmcRowEmptyOk : CmcRaw :=
  { rank := "", name := "Ghost", symbol := "", marketcap := "",
    price_usd := "", country := "" }

/-- A complete earnings environment with one custom table name and
column prefix choice. -/
def ecEnvA : EcEnv :=
  { alphavantage_api_key := some "k", db_name := some "db", db_user := some "u",
    db_password := some "p", db_host := some "h", db_charset := some "utf8",
    table_name_env := some "custom_table", columns_pre_env := some "x_" }

/-- The same environment with a different table name and column prefix
choice. -/
def ecEnvB : EcEnv :=
  { ecEnvA with table_name_env := some "other_table", columns_pre_env := some "y_" }

/-! ## Helper lemmas -/

/-- A successful earnings-row coercion normalizes the text fields with
the empty-string-to-null rule. -/
theorem parseEarningsRow_ok_proj (raw : EarningsRaw) (rec : EarningsRecord)
    (h : parseEarningsRow raw = .ok rec) :
    rec.symbol = pyStr raw.symbol ∧ rec.name = pyStr raw.name ∧
    rec.currency = pyStr raw.currency := by
  unfold parseEarningsRow at h
  split at h
  · injection h with h
    subst h
    exact ⟨rfl, rfl, rfl⟩
  · exact Except.noConfusion h
  · exact Except.noConfusion h
  · exact Except.noConfusion h

/-- A successful market-cap row coercion normalizes the text fields
with the empty-string-to-null rule. -/
theorem parseCmcRow_ok_proj (raw : CmcRaw) (rec : CmcRecord)
    (h : parseCmcRow raw = .ok rec) :
    rec.symbol = pyStr raw.symbol ∧ rec.name = pyStr raw.name ∧
    rec.country = pyStr raw.country := by
  unfold parseCmcRow at h
  split at h
  · injection h with h
    subst h
    exact ⟨rfl, rfl, rfl⟩
  · exact Except.noConfusion h
  · exact Except.noConfusion h
  · exact Except.noConfusion h

/-- The empty-string-to-null normalization never yields an empty text
value. -/
theorem pyStr_ne_some_empty (s : String) : pyStr s ≠ some "" := by
  unfold pyStr
  split
  · exact fun h => Option.noConfusion h
  · rename_i hne
    intro h
    injection h with h
    exact hne h

/-! ## Claims -/

/-- Claim C1, counterexample. A full-refresh run over a download with a
duplicated natural key aborts, but the table afterwards does not hold
its pre-run rows: the pre-run clear was committed before the insert
loop, so the rollback cannot restore them. -/
theorem claim_C1_counterexample :
    (cmcRun [cmcPreRow] true true true [cmcRowAcme, cmcRowAcme] 0).exitZero = false ∧
    (cmcRun [cmcPreRow] true true true [cmcRowAcme, cmcRowAcme] 0).table ≠ [cmcPreRow] := by
  decide

/-- Claim C1, amended. In full-refresh mode a persistence failure
during row insertion aborts the run; the rollback discards the inserts
of the current run, but the pre-run clear was committed in a separate
transaction, so the table afterwards is empty rather than in its
pre-run state. -/
theorem claim_C1 (pre : List CmcStored) (rows : List CmcRaw) (now : Nat) (e : CmcFail)
    (h : cmcProcessRows rows [] now = .error e) :
    (cmcRun pre true true true rows now).table = [] ∧
    (cmcRun pre true true true rows now).exitZero = false := by
  simp [cmcRun, h]

/-- Claim C1, witness: the amended statement evaluated on the
duplicate-key download. -/
theorem claim_C1_witness :
    (cmcRun [cmcPreRow] true true true [cmcRowAcme, cmcRowAcme] 0).table = [] ∧
    (cmcRun [cmcPreRow] true true true [cmcRowAcme, cmcRowAcme] 0).exitZero = false :=
  claim_C1 [cmcPreRow] [cmcRowAcme, cmcRowAcme] 0 (.dupKey "ACME") (by rfl)

/-- Claim C5, counterexample. A full-refresh run whose CSV schema check
fails exits without running cleanup and leaves the downloaded artifact
on disk: cleanup does not execute on every fatal path. -/
theorem claim_C5_counterexample :
    (cmcRun [] true false true [] 0).cleanupRan = false ∧
    (cmcRun [] true false true [] 0).csvRemains = true := by
  decide

/-- Claim C5, amended. Cleanup executes on success and on every fatal
error raised during row processing, but fatal exits taken before the
row-processing phase (download failure, and for the full-refresh feed
the schema-check and table-clear failures) terminate the run without
cleanup: cleanup runs exactly when the run reaches row processing. -/
theorem claim_C5 :
    (∀ (pre : List CmcStored) (dl sc cl : Bool) (rows : List CmcRaw) (now : Nat),
      (cmcRun pre dl sc cl rows now).cleanupRan = (dl && sc && cl)) ∧
    (∀ (pre : List EcStored) (dl : Bool) (rows : List EarningsRaw) (now : Nat),
      (ecRun pre dl rows now).cleanupRan = dl) := by
  constructor
  · intro pre dl sc cl rows now
    cases dl with
    | false => simp [cmcRun]
    | true =>
      cases sc with
      | false => simp [cmcRun]
      | true =>
        cases cl with
        | false => simp [cmcRun]
        | true =>
          simp only [cmcRun]
          cases hp : cmcProcessRows rows [] now <;> simp [hp]
  · intro pre dl rows now
    cases dl with
    | false => simp [ecRun]
    | true =>
      simp only [ecRun]
      cases hp : ecProcessRows rows pre now with
      | mk tbl err => cases err <;> simp [hp]

/-- Claim C7, counterexample. A raw row whose natural key is empty but
whose estimate is nonempty and malformed is not skipped: the run aborts
on it and the following well-formed row is never processed or written. -/
theorem claim_C7_counterexample :
    (ecRun [] true [ecRawEmptyBad, ecRawIbm] 0).exitZero = false ∧
    (ecRun [] true [ecRawEmptyBad, ecRawIbm] 0).table = [] := by
  decide

/-- The code-shaped and specification-shaped change-set computations
agree for every combination of the five truthiness flags. -/
theorem lc_core (b1 b2 b3 b4 b5 : Bool) :
    (match (if b1 then ["ec_name"] else []) ++ (if b2 then ["ec_report_date"] else []) ++
        (if b3 then ["ec_fiscal_date_ending"] else []) ++ (if b4 then ["ec_estimate"] else []) ++
        (if b5 then ["ec_currency"] else []) with
      | [] => (none : Option String)
      | cs => some ((String.intercalate ", " cs).take 255)) =
    (if (specCols b1 b2 b3 b4 b5).isEmpty then none
     else some ((String.intercalate ", " (specCols b1 b2 b3 b4 b5)).take 255)) := by
  cases b1 <;> cases b2 <;> cases b3 <;> cases b4 <;> cases b5 <;> rfl

/-- On records whose normalized text fields are never the empty string,
the truthiness-based change set is the non-null-based one of the
specification. -/
theorem last_changed_eq_spec (rec : EarningsRecord)
    (hn : rec.name ≠ some "") (hc : rec.currency ≠ some "") :
    last_changed rec = lastChangedSpec rec := by
  have hn' : pyTruthyStr rec.name = rec.name.isSome := by
    cases h : rec.name with
    | none => rfl
    | some s =>
      have hs : s ≠ "" := by
        intro hE
        exact hn (by rw [h, hE])
      simp [pyTruthyStr, hs]
  have hc' : pyTruthyStr rec.currency = rec.currency.isSome := by
    cases h : rec.currency with
    | none => rfl
    | some s =>
      have hs : s ≠ "" := by
        intro hE
        exact hc (by rw [h, hE])
      simp [pyTruthyStr, hs]
  have hd1 : pyTruthyDate rec.report_date = rec.report_date.isSome := by
    cases rec.report_date <;> rfl
  have hd2 : pyTruthyDate rec.fiscal_date_ending = rec.fiscal_date_ending.isSome := by
    cases rec.fiscal_date_ending <;> rfl
  have key : last_changed rec =
      (if (specCols (pyTruthyStr rec.name) (pyTruthyDate rec.report_date)
            (pyTruthyDate rec.fiscal_date_ending) (pyTruthyDec rec.estimate)
            (pyTruthyStr rec.currency)).isEmpty then none
       else some ((String.intercalate ", "
          (specCols (pyTruthyStr rec.name) (pyTruthyDate rec.report_date)
            (pyTruthyDate rec.fiscal_date_ending) (pyTruthyDec rec.estimate)
            (pyTruthyStr rec.currency))).take 255)) :=
    lc_core (pyTruthyStr rec.name) (pyTruthyDate rec.report_date)
      (pyTruthyDate rec.fiscal_date_ending) (pyTruthyDec rec.estimate)
      (pyTruthyStr rec.currency)
  rw [hn', hc', hd1, hd2] at key
  exact key

/-- Claim C3 (confirmed). For every parsed earnings record, the stored
change-set string equals the specification computation: the storage
column names of exactly the mutable fields whose incoming value is
truthy (non-null, and non-zero for the numeric estimate), in the fixed
order name, report date, fiscal period end, estimate, currency, joined
with comma-space, truncated to 255 characters, and null when no field
is truthy. -/
theorem claim_C3 (raw : EarningsRaw) (rec : EarningsRecord)
    (h : parseEarningsRow raw = .ok rec) :
    last_changed rec = lastChangedSpec rec := by
  obtain ⟨hs, hn, hc⟩ := parseEarningsRow_ok_proj raw rec h
  refine last_changed_eq_spec rec ?hn ?hc
  · rw [hn]
    exact pyStr_ne_some_empty raw.name
  · rw [hc]
    exact pyStr_ne_some_empty raw.currency

/-- Claim C3, witness: the change-set equality evaluated on the parsed
second-run scenario-C record. -/
theorem claim_C3_witness :
    last_changed ecRecXom2 = lastChangedSpec ecRecXom2 :=
  claim_C3 ecRawXom2 ecRecXom2 (by rfl)

/-- Claim C4 (confirmed). In incremental mode, an upsert whose key is
already present overwrites every mutable field with the incoming value
(null included), sets last_polled and last_updated to the current time,
and sets last_changed to the change-detector output for the row. -/
theorem claim_C4 (tbl : List EcStored) (rec : EarningsRecord) (sym : String) (now : Nat)
    (hmem : tbl.any (fun s => s.symbol == sym) = true)
    (r : EcStored) (hr : r ∈ ecUpsert tbl rec sym now) (hsym : r.symbol = sym) :
    r = { symbol := sym, name := rec.name, report_date := rec.report_date,
          fiscal_date_ending := rec.fiscal_date_ending, estimate := rec.estimate,
          currency := rec.currency, last_polled := some now,
          last_updated := some now, last_changed := last_changed rec } := by
  unfold ecUpsert at hr
  rw [if_pos hmem] at hr
  rcases List.mem_map.mp hr with ⟨s, hsMem, hmap⟩
  by_cases hEq : s.symbol = sym
  · have hb : (s.symbol == sym) = true := beq_iff_eq.mpr hEq
    rw [if_pos hb] at hmap
    rw [← hmap]
    unfold ecStoredUpdate
    rw [hEq]
  · have hb : (s.symbol == sym) = false := beq_eq_false_iff_ne.mpr hEq
    rw [if_neg (by simp [hb])] at hmap
    rw [← hmap] at hsym
    exact absurd hsym hEq

/-- Claim C4, witness: the conflict branch evaluated on the scenario-C
table and second-run record. -/
theorem claim_C4_witness :
    ecStoredUpdate ecXomOld ecRecXom2 7 =
      { symbol := "XOM", name := ecRecXom2.name, report_date := ecRecXom2.report_date,
        fiscal_date_ending := ecRecXom2.fiscal_date_ending,
        estimate := ecRecXom2.estimate, currency := ecRecXom2.currency,
        last_polled := some 7, last_updated := some 7,
        last_changed := last_changed ecRecXom2 } :=
  claim_C4 [ecXomOld] ecRecXom2 "XOM" 7 (by decide)
    (ecStoredUpdate ecXomOld ecRecXom2 7) (by decide) (by rfl)

/-- Claim C8 (confirmed). In incremental mode, an upsert whose key is
absent appends a row carrying the incoming symbol, the five mutable
fields and last_polled; last_updated and last_changed are not set and
keep the column default null. -/
theorem claim_C8 (tbl : List EcStored) (rec : EarningsRecord) (sym : String) (now : Nat)
    (habs : tbl.any (fun s => s.symbol == sym) = false) :
    ecUpsert tbl rec sym now =
      tbl ++ [{ symbol := sym, name := rec.name, report_date := rec.report_date,
                fiscal_date_ending := rec.fiscal_date_ending, estimate := rec.estimate,
                currency := rec.currency, last_polled := some now,
                last_updated := none, last_changed := none }] := by
  unfold ecUpsert
  rw [if_neg (by simp [habs])]
  rfl

/-- Claim C8, witness: the insert branch evaluated on an empty table. -/
theorem claim_C8_witness :
    ecUpsert [] ecRecXom2 "XOM" 3 =
      [] ++ [{ symbol := "XOM", name := ecRecXom2.name,
               report_date := ecRecXom2.report_date,
               fiscal_date_ending := ecRecXom2.fiscal_date_ending,
               estimate := ecRecXom2.estimate, currency := ecRecXom2.currency,
               last_polled := some 3, last_updated := none, last_changed := none }] :=
  claim_C8 [] ecRecXom2 "XOM" 3 (by decide)

/-- Claim C10 (confirmed). Two earnings environments that differ only
in their nonempty TABLE_NAME and COLUMNS_PREFIX values load to the same
configuration, and every loaded configuration carries the hardcoded
table name and column prefix: the configured values never influence the
destination table or its column names. -/
theorem claim_C10 (e1 e2 : EcEnv)
    (h1 : e1.alphavantage_api_key = e2.alphavantage_api_key)
    (h2 : e1.db_name = e2.db_name) (h3 : e1.db_user = e2.db_user)
    (h4 : e1.db_password = e2.db_password) (h5 : e1.db_host = e2.db_host)
    (h6 : e1.db_charset = e2.db_charset)
    (t1 : envMissing e1.table_name_env = false)
    (t2 : envMissing e2.table_name_env = false)
    (p1 : envMissing e1.columns_pre_env = false)
    (p2 : envMissing e2.columns_pre_env = false) :
    loadEcConfig e1 = loadEcConfig e2 ∧
    (∀ c : EcConfig, loadEcConfig e1 = some c →
      c.table_name = "earningscalendar" ∧ c.columns_pre = "ec_") := by
  constructor
  · unfold loadEcConfig
    rw [h1, h2, h3, h4, h5, h6, t1, t2, p1, p2]
  · intro c hc
    unfold loadEcConfig at hc
    split at hc
    · exact Option.noConfusion hc
    · injection hc with hc
      rw [← hc]
      exact ⟨rfl, rfl⟩

/-- Claim C10, witness: the noninterference conclusion evaluated on two
environments choosing different table names and column prefixes. -/
theorem claim_C10_witness :
    loadEcConfig ecEnvA = loadEcConfig ecEnvB :=
  (claim_C10 ecEnvA ecEnvB rfl rfl rfl rfl rfl rfl (by decide) (by decide)
    (by decide) (by decide)).1

/-- A market-cap row whose coercion raises is classified fatal by the
row loop. -/
theorem cmcRowStep_of_parse_error {tbl : List CmcStored} {raw : CmcRaw} {now : Nat}
    {e : ParseError} (hp : parseCmcRow raw = .error e) :
    cmcRowStep tbl raw now = .fatal (.parseFail e) := by
  simp [cmcRowStep, hp]

/-- A skipped market-cap row coerced successfully and has no key. -/
theorem cmcRowStep_skipped_parse {tbl : List CmcStored} {raw : CmcRaw} {now : Nat}
    (h : cmcRowStep tbl raw now = .skipped) :
    ∃ rec, parseCmcRow raw = .ok rec ∧ rec.symbol = none := by
  cases hp : parseCmcRow raw with
  | error e =>
    simp only [cmcRowStep, hp] at h
    exact CmcRowStep.noConfusion h
  | ok rec =>
    simp only [cmcRowStep, hp] at h
    cases hs : rec.symbol with
    | none => exact ⟨rec, rfl, hs⟩
    | some sym =>
      simp only [hs] at h
      split at h
      · exact CmcRowStep.noConfusion h
      · exact CmcRowStep.noConfusion h

/-- An inserted market-cap row coerced successfully, has a key, and the
inserted table row is the one built from its record. -/
theorem cmcRowStep_inserted_parse {tbl : List CmcStored} {raw : CmcRaw} {now : Nat}
    {row : CmcStored} (h : cmcRowStep tbl raw now = .inserted row) :
    ∃ rec sym, parseCmcRow raw = .ok rec ∧ rec.symbol = some sym ∧
      row = cmcStoredOf now rec := by
  cases hp : parseCmcRow raw with
  | error e =>
    simp only [cmcRowStep, hp] at h
    exact CmcRowStep.noConfusion h
  | ok rec =>
    simp only [cmcRowStep, hp] at h
    cases hs : rec.symbol with
    | none =>
      simp only [hs] at h
      exact CmcRowStep.noConfusion h
    | some sym =>
      simp only [hs] at h
      split at h
      · exact CmcRowStep.noConfusion h
      · injection h with h
        exact ⟨rec, sym, rfl, hs, h.symm⟩

/-- A row that fails coercion contributes nothing to the valid set. -/
theorem cmcValidRecords_cons_err {raw : CmcRaw} {rest : List CmcRaw} {e : ParseError}
    (hp : parseCmcRow raw = .error e) :
    cmcValidRecords (raw :: rest) = cmcValidRecords rest := by
  simp [cmcValidRecords, hp]

/-- A keyless row contributes nothing to the valid set. -/
theorem cmcValidRecords_cons_skip {raw : CmcRaw} {rest : List CmcRaw} {rec : CmcRecord}
    (hp : parseCmcRow raw = .ok rec) (hs : rec.symbol = none) :
    cmcValidRecords (raw :: rest) = cmcValidRecords rest := by
  simp [cmcValidRecords, hp, hs]

/-- A keyed row heads the valid set. -/
theorem cmcValidRecords_cons_keep {raw : CmcRaw} {rest : List CmcRaw} {rec : CmcRecord}
    {sym : String} (hp : parseCmcRow raw = .ok rec) (hs : rec.symbol = some sym) :
    cmcValidRecords (raw :: rest) = rec :: cmcValidRecords rest := by
  simp [cmcValidRecords, hp, hs]

/-- A full-refresh insert loop that completes produces exactly the
stored images of the valid parsed rows, appended to its accumulator. -/
theorem cmcProcessRows_ok_eq (rows : List CmcRaw) :
    ∀ (acc tbl : List CmcStored) (now : Nat),
      cmcProcessRows rows acc now = .ok tbl →
      tbl = acc ++ (cmcValidRecords rows).map (cmcStoredOf now) := by
  induction rows with
  | nil =>
    intro acc tbl now h
    simp only [cmcProcessRows] at h
    injection h with h
    simp [cmcValidRecords, ← h]
  | cons raw rest ih =>
    intro acc tbl now h
    simp only [cmcProcessRows] at h
    cases hstep : cmcRowStep acc raw now with
    | fatal e =>
      rw [hstep] at h
      exact Except.noConfusion h
    | skipped =>
      rw [hstep] at h
      obtain ⟨rec, hp, hs⟩ := cmcRowStep_skipped_parse hstep
      rw [cmcValidRecords_cons_skip hp hs]
      exact ih acc tbl now h
    | inserted row =>
      rw [hstep] at h
      obtain ⟨rec, sym, hp, hs, hrow⟩ := cmcRowStep_inserted_parse hstep
      rw [cmcValidRecords_cons_keep hp hs]
      have hrest := ih (acc ++ [row]) tbl now h
      rw [hrest, hrow]
      simp

/-- Claim C2 (confirmed). Every successful full-refresh run leaves the
destination table holding exactly the stored images of the valid parsed
rows of the download, independently of the pre-run contents. -/
theorem claim_C2 (pre : List CmcStored) (dl sc cl : Bool) (rows : List CmcRaw) (now : Nat)
    (h : (cmcRun pre dl sc cl rows now).exitZero = true) :
    (cmcRun pre dl sc cl rows now).table = (cmcValidRecords rows).map (cmcStoredOf now) := by
  cases dl with
  | false => simp [cmcRun] at h
  | true =>
    cases sc with
    | false => simp [cmcRun] at h
    | true =>
      cases cl with
      | false => simp [cmcRun] at h
      | true =>
        cases hp : cmcProcessRows rows [] now with
        | error e => simp [cmcRun, hp] at h
        | ok tbl =>
          simp only [cmcRun, hp]
          simpa using cmcProcessRows_ok_eq rows [] tbl now hp

/-- Claim C2, witness: the full-refresh exactness evaluated on a
one-row download over a nonempty pre-run table. -/
theorem claim_C2_witness :
    (cmcRun [cmcPreRow] true true true [cmcRowAcme] 0).table =
      (cmcValidRecords [cmcRowAcme]).map (cmcStoredOf 0) :=
  claim_C2 [cmcPreRow] true true true [cmcRowAcme] 0 (by decide)

/-- A market-cap row with a nonempty non-coercing numeric field never
coerces to a record. -/
theorem cmcNumBad_parse (raw : CmcRaw) (hb : cmcNumBad raw = true) :
    ∀ rec, parseCmcRow raw ≠ .ok rec := by
  intro rec h
  unfold cmcNumBad at hb
  simp only [Bool.or_eq_true, Bool.and_eq_true, bne_iff_ne, ne_eq,
    Option.isNone_iff_eq_none] at hb
  have hbad : pyIntField "Rank" raw.rank = .error (.badInt "Rank" raw.rank) ∨
      pyFloatField "marketcap" raw.marketcap =
        .error (.badFloat "marketcap" raw.marketcap) ∨
      pyFloatField "price (USD)" raw.price_usd =
        .error (.badFloat "price (USD)" raw.price_usd) := by
    rcases hb with (⟨hne, hpn⟩ | ⟨hne, hpn⟩) | ⟨hne, hpn⟩
    · exact Or.inl (by unfold pyIntField; rw [if_neg hne, hpn])
    · exact Or.inr (Or.inl (by unfold pyFloatField; rw [if_neg hne, hpn]))
    · exact Or.inr (Or.inr (by unfold pyFloatField; rw [if_neg hne, hpn]))
  unfold parseCmcRow at h
  cases h1 : pyIntField "Rank" raw.rank <;> rw [h1] at h <;>
    cases h2 : pyFloatField "marketcap" raw.marketcap <;> rw [h2] at h <;>
      cases h3 : pyFloatField "price (USD)" raw.price_usd <;> rw [h3] at h
  all_goals
    first
    | exact Except.noConfusion h
    | (rcases hbad with hf | hf | hf <;>
        first
        | (rw [hf] at h1; exact Except.noConfusion h1)
        | (rw [hf] at h2; exact Except.noConfusion h2)
        | (rw [hf] at h3; exact Except.noConfusion h3))

/-- An earnings row with a nonempty non-coercing date or numeric field
never coerces to a record. -/
theorem ecFieldBad_parse (raw : EarningsRaw) (hb : ecFieldBad raw = true) :
    ∀ rec, parseEarningsRow raw ≠ .ok rec := by
  intro rec h
  unfold ecFieldBad at hb
  simp only [Bool.or_eq_true, Bool.and_eq_true, bne_iff_ne, ne_eq,
    Option.isNone_iff_eq_none] at hb
  have hbad : pyDateField "reportDate" raw.reportDate =
        .error (.badDate "reportDate" raw.reportDate) ∨
      pyDateField "fiscalDateEnding" raw.fiscalDateEnding =
        .error (.badDate "fiscalDateEnding" raw.fiscalDateEnding) ∨
      pyFloatField "estimate" raw.estimate =
        .error (.badFloat "estimate" raw.estimate) := by
    rcases hb with (⟨hne, hpn⟩ | ⟨hne, hpn⟩) | ⟨hne, hpn⟩
    · exact Or.inl (by unfold pyDateField; rw [if_neg hne, hpn])
    · exact Or.inr (Or.inl (by unfold pyDateField; rw [if_neg hne, hpn]))
    · exact Or.inr (Or.inr (by unfold pyFloatField; rw [if_neg hne, hpn]))
  unfold parseEarningsRow at h
  cases h1 : pyDateField "reportDate" raw.reportDate <;> rw [h1] at h <;>
    cases h2 : pyDateField "fiscalDateEnding" raw.fiscalDateEnding <;> rw [h2] at h <;>
      cases h3 : pyFloatField "estimate" raw.estimate <;> rw [h3] at h
  all_goals
    first
    | exact Except.noConfusion h
    | (rcases hbad with hf | hf | hf <;>
        first
        | (rw [hf] at h1; exact Except.noConfusion h1)
        | (rw [hf] at h2; exact Except.noConfusion h2)
        | (rw [hf] at h3; exact Except.noConfusion h3))

/-- A full-refresh insert loop over a download containing a row with a
nonempty malformed numeric field never completes. -/
theorem cmcProcessRows_bad (rows : List CmcRaw) :
    ∀ (acc tbl : List CmcStored) (now : Nat), (∃ r ∈ rows, cmcNumBad r = true) →
      cmcProcessRows rows acc now ≠ .ok tbl := by
  induction rows with
  | nil =>
    intro acc tbl now hb
    simp at hb
  | cons raw rest ih =>
    intro acc tbl now hb h
    simp only [cmcProcessRows] at h
    rcases hb with ⟨r, hr, hbad⟩
    rcases List.mem_cons.mp hr with rfl | hr2
    · cases hp : parseCmcRow r with
      | error e =>
        rw [cmcRowStep_of_parse_error hp] at h
        exact Except.noConfusion h
      | ok rec => exact cmcNumBad_parse r hbad rec hp
    · cases hstep : cmcRowStep acc raw now with
      | fatal e =>
        rw [hstep] at h
        exact Except.noConfusion h
      | skipped =>
        rw [hstep] at h
        exact ih acc tbl now ⟨r, hr2, hbad⟩ h
      | inserted row =>
        rw [hstep] at h
        exact ih (acc ++ [row]) tbl now ⟨r, hr2, hbad⟩ h

/-- An incremental row loop over a download containing a row with a
nonempty malformed date or numeric field always reports an error. -/
theorem ecProcessRows_bad (rows : List EarningsRaw) :
    ∀ (tbl : List EcStored) (now : Nat), (∃ r ∈ rows, ecFieldBad r = true) →
      (ecProcessRows rows tbl now).2.isSome = true := by
  induction rows with
  | nil =>
    intro tbl now hb
    simp at hb
  | cons raw rest ih =>
    intro tbl now hb
    rcases hb with ⟨r, hr, hbad⟩
    rcases List.mem_cons.mp hr with rfl | hr2
    · cases hp : parseEarningsRow r with
      | error e => simp [ecProcessRows, ecRowStep, hp]
      | ok rec => exact absurd hp (ecFieldBad_parse r hbad rec)
    · cases hstep : ecRowStep raw with
      | fatal e => simp [ecProcessRows, hstep]
      | skipped =>
        simp only [ecProcessRows, hstep]
        exact ih tbl now ⟨r, hr2, hbad⟩
      | wrote rec sym =>
        simp only [ecProcessRows, hstep]
        exact ih (ecUpsert tbl rec sym now) now ⟨r, hr2, hbad⟩

/-- Claim C6 (confirmed). A run of either feed whose input contains a
row with a nonempty malformed numeric or date field exits with nonzero
status: malformed numerics and dates are never a recoverable row-level
skip. -/
theorem claim_C6 :
    (∀ (pre : List CmcStored) (dl sc cl : Bool) (rows : List CmcRaw) (now : Nat),
      (∃ r ∈ rows, cmcNumBad r = true) →
      (cmcRun pre dl sc cl rows now).exitZero = false) ∧
    (∀ (pre : List EcStored) (dl : Bool) (rows : List EarningsRaw) (now : Nat),
      (∃ r ∈ rows, ecFieldBad r = true) →
      (ecRun pre dl rows now).exitZero = false) := by
  constructor
  · intro pre dl sc cl rows now hb
    cases dl with
    | false => simp [cmcRun]
    | true =>
      cases sc with
      | false => simp [cmcRun]
      | true =>
        cases cl with
        | false => simp [cmcRun]
        | true =>
          cases hp : cmcProcessRows rows [] now with
          | ok tbl => exact absurd hp (cmcProcessRows_bad rows [] tbl now hb)
          | error e => simp [cmcRun, hp]
  · intro pre dl rows now hb
    cases dl with
    | false => simp [ecRun]
    | true =>
      have hsome := ecProcessRows_bad rows pre now hb
      cases hp : ecProcessRows rows pre now with
      | mk tbl2 err =>
        rw [hp] at hsome
        cases err with
        | none => simp at hsome
        | some e => simp [ecRun, hp]

/-- Claim C6, witness: the fatal-abort conclusion evaluated on one-row
downloads carrying a malformed marketcap and a malformed estimate. -/
theorem claim_C6_witness :
    (cmcRun [] true true true [cmcRowBadMc] 0).exitZero = false ∧
    (ecRun [] true [ecRawBadEst] 0).exitZero = false :=
  ⟨claim_C6.1 [] true true true [cmcRowBadMc] 0
     ⟨cmcRowBadMc, List.mem_singleton.mpr rfl, by decide⟩,
   claim_C6.2 [] true [ecRawBadEst] 0
     ⟨ecRawBadEst, List.mem_singleton.mpr rfl, by decide⟩⟩

/-- Claim C7, amended. A raw row whose natural key is empty after
normalization and whose remaining fields coerce successfully is skipped
by the row loop of either feed: it is excluded from every table write
and processing continues with the remaining rows unchanged. -/
theorem claim_C7 :
    (∀ (raw : EarningsRaw) (rec : EarningsRecord) (rest : List EarningsRaw)
        (tbl : List EcStored) (now : Nat),
      parseEarningsRow raw = .ok rec → raw.symbol = "" →
      ecRowStep raw = .skipped ∧
      ecProcessRows (raw :: rest) tbl now = ecProcessRows rest tbl now) ∧
    (∀ (raw : CmcRaw) (rec : CmcRecord) (rest : List CmcRaw)
        (tbl : List CmcStored) (now : Nat),
      parseCmcRow raw = .ok rec → raw.symbol = "" →
      cmcRowStep tbl raw now = .skipped ∧
      cmcProcessRows (raw :: rest) tbl now = cmcProcessRows rest tbl now) := by
  constructor
  · intro raw rec rest tbl now hp hsym
    have hs : rec.symbol = none := by
      rw [(parseEarningsRow_ok_proj raw rec hp).1, hsym]
      rfl
    have hstep : ecRowStep raw = .skipped := by simp [ecRowStep, hp, hs]
    exact ⟨hstep, by simp [ecProcessRows, hstep]⟩
  · intro raw rec rest tbl now hp hsym
    have hs : rec.symbol = none := by
      rw [(parseCmcRow_ok_proj raw rec hp).1, hsym]
      rfl
    have hstep : cmcRowStep tbl raw now = .skipped := by simp [cmcRowStep, hp, hs]
    exact ⟨hstep, by simp [cmcProcessRows, hstep]⟩

/-- Claim C7, witness: the amended skip behaviour evaluated on the
empty-key well-formed row followed by a well-formed row. -/
theorem claim_C7_witness :
    ecRowStep ecRawEmptyOk = .skipped ∧
    ecProcessRows [ecRawEmptyOk, ecRawIbm] [] 5 = ecProcessRows [ecRawIbm] [] 5 :=
  claim_C7.1 ecRawEmptyOk ecRecEmptyOk [ecRawIbm] [] 5 (by rfl) (by rfl)

/-- Claim C9 (confirmed). Field coercion runs before the natural-key
check: a row with an empty key and a nonempty malformed field is
classified fatal, not skipped, and the skip classification is reachable
only for rows whose fields all coerce. -/
theorem claim_C9 :
    (∀ raw : EarningsRaw, raw.symbol = "" → ecFieldBad raw = true →
      ∃ e, ecRowStep raw = .fatal e) ∧
    (∀ raw : EarningsRaw, ecRowStep raw = .skipped →
      ∃ rec, parseEarningsRow raw = .ok rec) ∧
    (∀ (tbl : List CmcStored) (now : Nat) (raw : CmcRaw),
      raw.symbol = "" → cmcNumBad raw = true →
      ∃ e, cmcRowStep tbl raw now = .fatal e) ∧
    (∀ (tbl : List CmcStored) (now : Nat) (raw : CmcRaw),
      cmcRowStep tbl raw now = .skipped →
      ∃ rec, parseCmcRow raw = .ok rec) := by
  refine ⟨?e1, ?e2, ?c1, ?c2⟩
  · intro raw hsym hbad
    cases hp : parseEarningsRow raw with
    | error e => exact ⟨e, by simp [ecRowStep, hp]⟩
    | ok rec => exact absurd hp (ecFieldBad_parse raw hbad rec)
  · intro raw h
    cases hp : parseEarningsRow raw with
    | error e =>
      simp only [ecRowStep, hp] at h
      exact EcRowStep.noConfusion h
    | ok rec => exact ⟨rec, rfl⟩
  · intro tbl now raw hsym hbad
    cases hp : parseCmcRow raw with
    | error e => exact ⟨.parseFail e, cmcRowStep_of_parse_error hp⟩
    | ok rec => exact absurd hp (cmcNumBad_parse raw hbad rec)
  · intro tbl now raw h
    obtain ⟨rec, hp, _⟩ := cmcRowStep_skipped_parse h
    exact ⟨rec, hp⟩

/-- Claim C9, witness: the coercion-before-skip ordering evaluated on
empty-key rows with and without malformed fields. -/
theorem claim_C9_witness :
    (∃ e, ecRowStep ecRawEmptyBad = .fatal e) ∧
    (∃ rec, parseEarningsRow ecRawEmptyOk = .ok rec) ∧
    (∃ e, cmcRowStep ([] : List CmcStored) cmcRowEmptyBad 0 = .fatal e) ∧
    (∃ rec, parseCmcRow cmcRowEmptyOk = .ok rec) :=
  ⟨claim_C9.1 ecRawEmptyBad rfl (by decide),
   claim_C9.2.1 ecRawEmptyOk (by rfl),
   claim_C9.2.2.1 [] 0 cmcRowEmptyBad rfl (by decide),
   claim_C9.2.2.2 [] 0 cmcRowEmptyOk (by rfl)⟩

end EarningsCalendar
